import Mathlib

/-!
Verification of the `mdl-ext` collapsible widget (`src/collapsible/collapsible.js`).

The JavaScript component manipulates DOM attributes only, so the embedding
models the relevant fragment of the DOM:

* an element is a node name together with an attribute list (attribute order
  is the insertion order, as in a serialized DOM);
* a document is an association list from node references (`Nat`) to elements,
  kept in document order, so that `document.querySelector('#id')` becomes
  "first node whose `id` attribute equals `id`";
* the component's surrounding tree shape is abstracted by a `Component`
  record listing the root's descendants (in document order, the search space
  of `element.querySelector`) and its following siblings (the
  `nextElementSibling` chain).

Stateful methods become functions `Doc → Doc`; methods that can throw a
`TypeError`/`Error` (a `getAttribute(...).toLowerCase()` on a missing
attribute, the missing-control check in `init`) return `Except Doc Doc`,
the error value carrying the document as of the throw point.
-/

set_option autoImplicit false

namespace MdlExt

/-- An attribute list: attribute name / value pairs in document order. -/
abbrev Attrs := List (String × String)

/-- Look up an attribute value, first match wins (attribute names are unique
in a real DOM, the first-match rule makes the model total regardless). -/
def attrGet : Attrs → String → Option String
  | [], _ => none
  | (n, v) :: rest, a => if n = a then some v else attrGet rest a

/-- Replace the value of every entry named `a` (mirrors mutation of the
unique attribute node in the DOM). -/
def attrReplace : Attrs → String → String → Attrs
  | [], _, _ => []
  | (n, w) :: rest, a, v =>
    if n = a then (a, v) :: attrReplace rest a v else (n, w) :: attrReplace rest a v

/-- `Element.setAttribute`: overwrite when present, append when absent. -/
def attrSet (l : Attrs) (a v : String) : Attrs :=
  if (attrGet l a).isSome then attrReplace l a v else l ++ [(a, v)]

/-- `Element.removeAttribute`. -/
def attrRemove (l : Attrs) (a : String) : Attrs :=
  l.filter (fun q => q.1 != a)

/-- An element: node name (e.g. "button", "div") and its attributes. -/
structure Elem where
  nodeName : String
  attrs : Attrs
deriving DecidableEq, Repr

/-- A document: node references paired with element data, in document order. -/
abbrev Doc := List (Nat × Elem)

/-- First element stored under a node reference. -/
def findElem : Doc → Nat → Option Elem
  | [], _ => none
  | (r', e) :: rest, r => if r' = r then some e else findElem rest r

/-- Apply an element transformation at a node reference. -/
def updateElem : Doc → Nat → (Elem → Elem) → Doc
  | [], _, _ => []
  | (r', e) :: rest, r, f =>
    if r' = r then (r', f e) :: updateElem rest r f else (r', e) :: updateElem rest r f

/-- `el.getAttribute(a)` for the element referenced by `r`. -/
def getAttribute (d : Doc) (r : Nat) (a : String) : Option String :=
  match findElem d r with
  | none => none
  | some e => attrGet e.attrs a

/-- `el.hasAttribute(a)`. -/
def hasAttribute (d : Doc) (r : Nat) (a : String) : Bool :=
  (getAttribute d r a).isSome

/-- `el.setAttribute(a, v)`. -/
def setAttribute (d : Doc) (r : Nat) (a v : String) : Doc :=
  updateElem d r (fun e => { e with attrs := attrSet e.attrs a v })

/-- `el.removeAttribute(a)`. -/
def removeAttribute (d : Doc) (r : Nat) (a : String) : Doc :=
  updateElem d r (fun e => { e with attrs := attrRemove e.attrs a })

/-- The node reference denotes an element of the document. -/
def elemIn (d : Doc) (r : Nat) : Bool :=
  (findElem d r).isSome

/-- `el.nodeName` (empty for a dangling reference). -/
def nodeNameOf (d : Doc) (r : Nat) : String :=
  match findElem d r with
  | some e => e.nodeName
  | none => ""

/-- `el.id`: the `id` attribute, `""` when absent (DOM reflection). -/
def elemIdOf (d : Doc) (r : Nat) : String :=
  (getAttribute d r "id").getD ""

/-- Split a character list at every space, keeping empty segments: the
semantics of JS `String.prototype.split(' ')` (e.g. `""` gives `[""]` and
`"a  b"` gives `["a", "", "b"]`). Structural recursion so that concrete
instances compute by kernel reduction. -/
def splitSpChars : List Char → List (List Char)
  | [] => [[]]
  | c :: rest =>
    match splitSpChars rest with
    | [] => [[]]
    | g :: gs => if c = ' ' then [] :: g :: gs else (c :: g) :: gs

/-- JS `s.split(' ')`. -/
def splitOnSpace (s : String) : List String :=
  (splitSpChars s.data).map (fun cs => String.mk cs)

/-- JS `s.toLowerCase()` (ASCII), written over the character list so that
concrete instances compute by kernel reduction. -/
def jsToLower (s : String) : String :=
  String.mk (s.data.map Char.toLower)

/-- The `class` attribute parsed into tokens (split on spaces, empties
dropped), the view `el.classList` exposes. -/
def classTokens (d : Doc) (r : Nat) : List String :=
  (splitOnSpace ((getAttribute d r "class").getD "")).filter (fun s => s != "")

/-- `el.classList.contains(cls)`. -/
def classContains (d : Doc) (r : Nat) (cls : String) : Bool :=
  (classTokens d r).contains cls

/-- `el.classList.add(cls)`: no-op when the token is present, otherwise the
token list is extended and serialized back into the `class` attribute. -/
def classListAdd (d : Doc) (r : Nat) (cls : String) : Doc :=
  if (classTokens d r).contains cls then d
  else setAttribute d r "class" (" ".intercalate (classTokens d r ++ [cls]))

/-- Inner loop of id lookup: first node whose `id` attribute matches. -/
def findByIdLoop : Doc → String → Option Nat
  | [], _ => none
  | (r, e) :: rest, i => if attrGet e.attrs "id" = some i then some r else findByIdLoop rest i

/-- `document.querySelector('#' + i)`, abstracted to id lookup; the empty id
(an invalid selector in the DOM) is abstracted as "no match". -/
def querySelectorId (d : Doc) (i : String) : Option Nat :=
  if i = "" then none else findByIdLoop d i

-- The class-name constants of `collapsible.js`.

def JS_COLLAPSIBLE : String := "mdlext-js-collapsible"

def COLLAPSIBLE_CONTROL_CLASS : String := "mdlext-collapsible-control"

def COLLAPSIBLE_REGION_CLASS : String := "mdlext-collapsible-region"

/-- The internal `Collapsible` object: the component element and the control
element found by `init` (node references into the document). -/
structure Collapsible where
  element_ : Nat
  controlElement_ : Nat
deriving DecidableEq, Repr

/-- The `controlElement` getter. -/
def Collapsible.controlElement (col : Collapsible) : Nat :=
  col.controlElement_

/-- The `regionIds` getter: split `aria-controls` on single spaces when the
attribute is present (JS `split(' ')`, which keeps empty segments), `[]`
when absent. -/
def Collapsible.regionIds (col : Collapsible) (d : Doc) : List String :=
  match getAttribute d col.controlElement_ "aria-controls" with
  | some v => splitOnSpace v
  | none => []

/-- The `regionElements` getter: resolve each listed id via
`document.querySelector` and drop the ids that resolve to nothing. -/
def Collapsible.regionElements (col : Collapsible) (d : Doc) : List Nat :=
  (col.regionIds d).filterMap (fun i => querySelectorId d i)

/-- `collapse()`: set `aria-expanded="false"` on the control, then set the
`hidden` attribute on every region element. -/
def Collapsible.collapse (col : Collapsible) (d : Doc) : Doc :=
  let d1 := setAttribute d col.controlElement_ "aria-expanded" "false"
  (col.regionElements d1).foldl (fun dd r => setAttribute dd r "hidden" "") d1

/-- `expand()`: set `aria-expanded="true"` on the control, then remove the
`hidden` attribute from every region element. -/
def Collapsible.expand (col : Collapsible) (d : Doc) : Doc :=
  let d1 := setAttribute d col.controlElement_ "aria-expanded" "true"
  (col.regionElements d1).foldl (fun dd r => removeAttribute dd r "hidden") d1

/-- `toggle()`: dispatch on `aria-expanded`; reading it when absent is a
`TypeError` (`null.toLowerCase()`), modelled as the error case. -/
def Collapsible.toggle (col : Collapsible) (d : Doc) : Except Doc Doc :=
  match getAttribute d col.controlElement_ "aria-expanded" with
  | none => .error d
  | some v => if jsToLower v = "false" then .ok (col.expand d) else .ok (col.collapse d)

/-- `addRegionId(regionId)`: the guard is JS `!ids.find(id => regionId === id)`,
which is true when there is no match (`undefined`) and also when the match is
the falsy empty string; `getD ""` renders both falsy cases as `""`. -/
def Collapsible.addRegionId (col : Collapsible) (d : Doc) (regionId : String) : Doc :=
  if (((col.regionIds d).find? (fun i => regionId == i)).getD "") = "" then
    setAttribute d col.controlElement_ "aria-controls"
      (" ".intercalate (col.regionIds d ++ [regionId]))
  else d

/-- `addRegionElement(region)`. `freshId` stands for the
`region-${randomString()}` value produced by `utils/string-utils` (not part
of the sources; the generated id is a parameter of the model). The read of
the control's `aria-expanded` throws when the attribute is absent; the error
value carries the writes already performed. -/
def Collapsible.addRegionElement (col : Collapsible) (d : Doc) (region : Nat)
    (freshId : String) : Except Doc Doc :=
  let d1 := if hasAttribute d region "id" then d else setAttribute d region "id" freshId
  let d2 := classListAdd d1 region COLLAPSIBLE_REGION_CLASS
  let d3 := setAttribute d2 region "role" "region"
  match getAttribute d3 col.controlElement_ "aria-expanded" with
  | none => .error d3
  | some v =>
    let d4 := if jsToLower v = "false" then setAttribute d3 region "hidden" ""
              else removeAttribute d3 region "hidden"
    let d5 := if hasAttribute d4 region "tabindex" then d4
              else setAttribute d4 region "tabindex" "-1"
    .ok (col.addRegionId d5 (elemIdOf d5 region))

/-- `removeRegionElement(region)`: guarded by JS truthiness of `region` (the
`Option`) and of `region.id` (nonempty string); when it fires, `aria-controls`
is rewritten to the join of the listed ids that equal `region.id`. -/
def Collapsible.removeRegionElement (col : Collapsible) (d : Doc) : Option Nat → Doc
  | none => d
  | some r =>
    if elemIdOf d r ≠ "" then
      setAttribute d col.controlElement_ "aria-controls"
        (" ".intercalate ((col.regionIds d).filter (fun i => i == elemIdOf d r)))
    else d

/-- The tree context of one component instance: the root element, the root's
descendants in document order (`element.querySelector` search space), and the
root's following siblings in order (`nextElementSibling` chain). -/
structure Component where
  element : Nat
  descendants : List Nat
  siblings : List Nat
deriving DecidableEq, Repr

/-- `this.element.querySelector('.mdlext-collapsible-control')`: the first
descendant carrying the control class. -/
def findControl (d : Doc) (comp : Component) : Option Nat :=
  comp.descendants.find? (fun r => classContains d r COLLAPSIBLE_CONTROL_CLASS)

/-- The sibling walk of `initRegions`: push every sibling with the region
class; a sibling without it that carries the `mdlext-js-collapsible` class
starts a new component and stops the walk; other siblings are skipped. -/
def discoverSiblingRegions (d : Doc) : List Nat → List Nat
  | [] => []
  | r :: rest =>
    if classContains d r COLLAPSIBLE_REGION_CLASS then r :: discoverSiblingRegions d rest
    else if classContains d r JS_COLLAPSIBLE then []
    else discoverSiblingRegions d rest

/-- The `regions` selection of `initRegions`: sibling walk when the control
has no `aria-controls`, otherwise the current `regionElements`. -/
def initRegionsSelect (col : Collapsible) (d : Doc) (comp : Component) : List Nat :=
  if hasAttribute d col.controlElement_ "aria-controls" then col.regionElements d
  else discoverSiblingRegions d comp.siblings

/-- `regions.forEach(region => this.addRegionElement(region))`: sequential
application, aborted by a throw; `fresh i` is the generated id available to
the `i`-th call. -/
def addRegionElementsGo (col : Collapsible) (d : Doc) (regions : List Nat)
    (fresh : Nat → String) (i : Nat) : Except Doc Doc :=
  match regions with
  | [] => .ok d
  | r :: rest =>
    match col.addRegionElement d r (fresh i) with
    | .error de => .error de
    | .ok d2 => addRegionElementsGo col d2 rest fresh (i + 1)

/-- Sequential `removeRegionElement` over a list of (nullable) elements. -/
def removeRegionElementsGo (col : Collapsible) (d : Doc)
    (regions : List (Option Nat)) : Doc :=
  match regions with
  | [] => d
  | r :: rest => removeRegionElementsGo col (col.removeRegionElement d r) rest

/-- The attribute-normalization statements of `initControl`: add
`aria-expanded="false"` when absent, add `role="button"` when the control is
not a `<button>`, add `tabindex="0"` when absent. -/
def normalizeControl (d : Doc) (c : Nat) : Doc :=
  let d1 := if hasAttribute d c "aria-expanded" then d
            else setAttribute d c "aria-expanded" "false"
  let d2 := if jsToLower (nodeNameOf d1 c) = "button" then d1
            else setAttribute d1 c "role" "button"
  if hasAttribute d2 c "tabindex" then d2
  else setAttribute d2 c "tabindex" "0"

/-- The `initControl` closure of `init()`: find the control (throw when there
is none, with the document untouched), then normalize its attributes. -/
def initControlRun (d : Doc) (comp : Component) : Except Doc (Doc × Nat) :=
  match findControl d comp with
  | none => .error d
  | some c => .ok (normalizeControl d c, c)

/-- `new Collapsible(element)` / `init()`: `initControl()` then
`initRegions()`. -/
def Collapsible.initRun (d : Doc) (comp : Component) (fresh : Nat → String) :
    Except Doc (Doc × Collapsible) :=
  match initControlRun d comp with
  | .error de => .error de
  | .ok (d3, c) =>
    let col : Collapsible := ⟨comp.element, c⟩
    match addRegionElementsGo col d3 (initRegionsSelect col d3 comp) fresh 0 with
    | .error de => .error de
    | .ok d4 => .ok (d4, col)

/-- The public widget registered as `MaterialExtCollapsible`: it owns the
upgraded element and the internal `Collapsible`. -/
structure MaterialExtCollapsible where
  element_ : Nat
  collapsible : Collapsible
deriving DecidableEq, Repr

/-- Public `getControlElement()`. -/
def MaterialExtCollapsible.getControlElement (w : MaterialExtCollapsible) : Nat :=
  w.collapsible.controlElement

/-- Public `getRegionElements()`. -/
def MaterialExtCollapsible.getRegionElements (w : MaterialExtCollapsible) (d : Doc) :
    List Nat :=
  w.collapsible.regionElements d

/-- Public `addRegionElements(...elements)`:
`elements.forEach(element => this.collapsible.addRegionElement(element))`. -/
def MaterialExtCollapsible.addRegionElements (w : MaterialExtCollapsible) (d : Doc)
    (elements : List Nat) (fresh : Nat → String) (i : Nat) : Except Doc Doc :=
  match elements with
  | [] => .ok d
  | e :: rest =>
    match w.collapsible.addRegionElement d e (fresh i) with
    | .error de => .error de
    | .ok d2 => MaterialExtCollapsible.addRegionElements w d2 rest fresh (i + 1)

/-- Public `removeRegionElements(...elements)`:
`elements.forEach(element => this.collapsible.removeRegionElement(element))`. -/
def MaterialExtCollapsible.removeRegionElements (w : MaterialExtCollapsible) (d : Doc)
    (elements : List (Option Nat)) : Doc :=
  match elements with
  | [] => d
  | e :: rest =>
    MaterialExtCollapsible.removeRegionElements w (w.collapsible.removeRegionElement d e) rest

/-- Public `expand()`. -/
def MaterialExtCollapsible.expand (w : MaterialExtCollapsible) (d : Doc) : Doc :=
  w.collapsible.expand d

/-- Public `collapse()`. -/
def MaterialExtCollapsible.collapse (w : MaterialExtCollapsible) (d : Doc) : Doc :=
  w.collapsible.collapse d

/-- Public `toggle()`. -/
def MaterialExtCollapsible.toggle (w : MaterialExtCollapsible) (d : Doc) : Except Doc Doc :=
  w.collapsible.toggle d

/-! ### Spec-side definitions and concrete instances -/

/-- The control element of the component carries an `aria-expanded`
attribute (the invariant established by `initControl`). -/
def ariaPresent (d : Doc) (col : Collapsible) : Prop :=
  hasAttribute d col.controlElement_ "aria-expanded" = true

/-- Between two document states, every author-supplied `aria-expanded`,
`tabindex` or `id` attribute value survives unchanged. -/
def preservesAuthorAttrs (d d' : Doc) : Prop :=
  ∀ (r : Nat) (a v : String), (a = "aria-expanded" ∨ a = "tabindex" ∨ a = "id") →
    getAttribute d r a = some v → getAttribute d' r a = some v

/-- Concrete instance for the C2 counterexample: a non-`button` control
carrying an author-supplied `role`. -/
def c2xDoc : Doc :=
  [(0, ⟨"div", []⟩),
   (1, ⟨"div", [("class", "mdlext-collapsible-control"), ("role", "note")]⟩)]

/-- Component context for the C2 counterexample. -/
def c2xComp : Component := ⟨0, [1], []⟩

/-- The document produced by initializing the C2 counterexample fixture: the
author's `role="note"` has been overwritten with `role="button"`. -/
def c2xDocAfter : Doc :=
  [(0, ⟨"div", []⟩),
   (1, ⟨"div", [("class", "mdlext-collapsible-control"), ("role", "button"),
        ("aria-expanded", "false"), ("tabindex", "0")]⟩)]

/-- Concrete instance for the C2 witness: a fully author-annotated fixture
(control with `tabindex="101"`, `aria-expanded`, `aria-controls`; region
already normalized), on which initialization changes nothing. -/
def c2wDoc : Doc :=
  [(0, ⟨"div", [("class", "mdlext-js-collapsible")]⟩),
   (1, ⟨"button", [("class", "mdlext-collapsible-control"), ("tabindex", "101"),
        ("aria-expanded", "false"), ("aria-controls", "region-1")]⟩),
   (2, ⟨"div", [("id", "region-1"), ("class", "mdlext-collapsible-region"),
        ("tabindex", "102"), ("role", "region"), ("hidden", "")]⟩)]

/-- Component context for the C2 witness. -/
def c2wComp : Component := ⟨0, [1], [2]⟩

/-- Concrete instance for the C6 failing input: a region whose author markup
carries the empty id `id=""`. -/
def c6xDoc : Doc :=
  [(1, ⟨"button", [("aria-expanded", "false")]⟩), (2, ⟨"div", [("id", "")]⟩)]

/-- State after the first `addRegionElement` on the C6 failing input:
`aria-controls` is `""`. -/
def c6xDoc1 : Doc :=
  [(1, ⟨"button", [("aria-expanded", "false"), ("aria-controls", "")]⟩),
   (2, ⟨"div", [("id", ""), ("class", "mdlext-collapsible-region"),
        ("role", "region"), ("hidden", ""), ("tabindex", "-1")]⟩)]

/-- State after the second `addRegionElement` on the C6 failing input: the
empty id has been appended again, `aria-controls` is now `" "`. -/
def c6xDoc2 : Doc :=
  [(1, ⟨"button", [("aria-expanded", "false"), ("aria-controls", " ")]⟩),
   (2, ⟨"div", [("id", ""), ("class", "mdlext-collapsible-region"),
        ("role", "region"), ("hidden", ""), ("tabindex", "-1")]⟩)]


/-- The sibling walk as claim C5 words it: the regions discovered are the
siblings carrying the region class that occur strictly before the first
sibling carrying the `mdlext-js-collapsible` class. (The source checks the
region class first, so a sibling carrying both classes behaves differently;
see the counterexample.) -/
def claimedSiblingRegions (d : Doc) (sibs : List Nat) : List Nat :=
  (sibs.takeWhile (fun r => !classContains d r JS_COLLAPSIBLE)).filter
    (fun r => classContains d r COLLAPSIBLE_REGION_CLASS)

/-- Concrete document for the C1 witness: a control with two associated
regions, one of them already hidden. -/
def c1wDoc : Doc :=
  [(1, ⟨"button", [("aria-expanded", "true"), ("aria-controls", "a b")]⟩),
   (5, ⟨"div", [("id", "a")]⟩),
   (6, ⟨"div", [("id", "b"), ("hidden", "")]⟩)]

/-- Concrete document for the C3 witness: `aria-controls` lists two ids. -/
def c3wDoc : Doc :=
  [(1, ⟨"button", [("aria-expanded", "true"), ("aria-controls", "ra rb")]⟩),
   (5, ⟨"div", [("id", "ra")]⟩),
   (6, ⟨"div", [("id", "rb")]⟩)]

/-- Concrete instance for the C5 counterexample: the first sibling carries
both the region class and the `mdlext-js-collapsible` class, the second is a
plain region. -/
def c5xDoc : Doc :=
  [(1, ⟨"button", []⟩),
   (3, ⟨"div", [("class", "mdlext-collapsible-region mdlext-js-collapsible")]⟩),
   (4, ⟨"div", [("class", "mdlext-collapsible-region")]⟩)]

/-- Component context for the C5 counterexample. -/
def c5xComp : Component := ⟨0, [1], [3, 4]⟩

/-- Concrete instance for the C5 witness: an ordinary sibling chain with one
region, one unrelated sibling and a following collapsible. -/
def c5wDoc : Doc :=
  [(1, ⟨"button", []⟩),
   (3, ⟨"div", [("class", "mdlext-collapsible-region")]⟩),
   (4, ⟨"p", []⟩),
   (7, ⟨"div", [("class", "mdlext-js-collapsible")]⟩),
   (8, ⟨"div", [("class", "mdlext-collapsible-region")]⟩)]

/-- Component context for the C5 witness. -/
def c5wComp : Component := ⟨0, [1], [3, 4, 7, 8]⟩

/-- Concrete document for the C9 witness: the default fixture (component,
button control, one sibling region). -/
def c9wDoc : Doc :=
  [(0, ⟨"div", [("class", "mdlext-js-collapsible")]⟩),
   (1, ⟨"button", [("class", "mdlext-collapsible-control")]⟩),
   (2, ⟨"div", [("class", "mdlext-collapsible-region")]⟩)]

/-- Component context for the C9 witness. -/
def c9wComp : Component := ⟨0, [1], [2]⟩

/-- Generated-id supply used by concrete initialization runs. -/
def c9wFresh : Nat → String := fun _ => "region-x"

/-- The document produced by initializing the C9 witness fixture. -/
def c9wDocAfter : Doc :=
  [(0, ⟨"div", [("class", "mdlext-js-collapsible")]⟩),
   (1, ⟨"button", [("class", "mdlext-collapsible-control"), ("aria-expanded", "false"),
        ("tabindex", "0"), ("aria-controls", "region-x")]⟩),
   (2, ⟨"div", [("class", "mdlext-collapsible-region"), ("id", "region-x"),
        ("role", "region"), ("hidden", ""), ("tabindex", "-1")]⟩)]

/-- Concrete instance for the C10 witness: a component without any control
descendant. -/
def c10xDoc : Doc := [(0, ⟨"div", [("class", "mdlext-js-collapsible")]⟩)]

/-- Component context for the C10 witness. -/
def c10xComp : Component := ⟨0, [0], []⟩

/-- Concrete document for the C7 witness. -/
def c7wDoc : Doc :=
  [(1, ⟨"button", [("aria-controls", "ra rb")]⟩)]

/-- Concrete document for the C7 counterexample: `aria-controls` is present
with the empty value, so the id list is `[""]`. -/
def c7xDoc : Doc :=
  [(1, ⟨"button", [("aria-controls", "")]⟩)]

/-! ### Attribute-list lemmas -/

theorem attrGet_attrReplace_self (l : Attrs) (a v : String)
    (h : (attrGet l a).isSome = true) : attrGet (attrReplace l a v) a = some v := by
  induction l with
  | nil => simp [attrGet] at h
  | cons hd tl ih =>
    obtain ⟨n, w⟩ := hd
    by_cases hna : n = a
    · subst hna
      simp [attrReplace, attrGet]
    · simp only [attrGet, if_neg hna] at h
      simp [attrReplace, attrGet, hna, ih h]

theorem attrGet_append_self (l : Attrs) (a v : String)
    (h : attrGet l a = none) : attrGet (l ++ [(a, v)]) a = some v := by
  induction l with
  | nil => simp [attrGet]
  | cons hd tl ih =>
    obtain ⟨n, w⟩ := hd
    by_cases hna : n = a
    · simp [attrGet, hna] at h
    · simp only [attrGet, if_neg hna] at h
      simp [attrGet, hna, ih h]

theorem attrGet_attrSet_self (l : Attrs) (a v : String) :
    attrGet (attrSet l a v) a = some v := by
  unfold attrSet
  by_cases h : (attrGet l a).isSome = true
  · simp [h, attrGet_attrReplace_self l a v h]
  · have hn : attrGet l a = none := Option.not_isSome_iff_eq_none.mp h
    simp [h, attrGet_append_self l a v hn]

theorem attrGet_attrReplace_ne (l : Attrs) (a a' v : String) (h : a' ≠ a) :
    attrGet (attrReplace l a v) a' = attrGet l a' := by
  induction l with
  | nil => simp [attrReplace]
  | cons hd tl ih =>
    obtain ⟨n, w⟩ := hd
    by_cases hna : n = a
    · subst hna
      simp [attrReplace, attrGet, Ne.symm h, ih]
    · simp [attrReplace, attrGet, hna, ih]

theorem attrGet_append_ne (l : Attrs) (a a' v : String) (h : a' ≠ a) :
    attrGet (l ++ [(a, v)]) a' = attrGet l a' := by
  induction l with
  | nil => simp [attrGet, Ne.symm h]
  | cons hd tl ih =>
    obtain ⟨n, w⟩ := hd
    by_cases hna : n = a'
    · simp [attrGet, hna]
    · simp [attrGet, hna, ih]

theorem attrGet_attrSet_ne (l : Attrs) (a a' v : String) (h : a' ≠ a) :
    attrGet (attrSet l a v) a' = attrGet l a' := by
  unfold attrSet
  by_cases hs : (attrGet l a).isSome = true
  · simp [hs, attrGet_attrReplace_ne l a a' v h]
  · simp [hs, attrGet_append_ne l a a' v h]

theorem attrGet_attrRemove_self (l : Attrs) (a : String) :
    attrGet (attrRemove l a) a = none := by
  induction l with
  | nil => simp [attrRemove, attrGet]
  | cons hd tl ih =>
    obtain ⟨n, w⟩ := hd
    by_cases hna : n = a
    · simp [attrRemove, List.filter_cons, hna] at ih ⊢
      exact ih
    · simp only [attrRemove, List.filter_cons] at ih ⊢
      simp [hna, attrGet, ih]

theorem attrGet_attrRemove_ne (l : Attrs) (a a' : String) (h : a' ≠ a) :
    attrGet (attrRemove l a) a' = attrGet l a' := by
  induction l with
  | nil => simp [attrRemove, attrGet]
  | cons hd tl ih =>
    obtain ⟨n, w⟩ := hd
    by_cases hna : n = a
    · subst hna
      simp only [attrRemove, List.filter_cons] at ih ⊢
      simp [attrGet, Ne.symm h, ih]
    · simp only [attrRemove, List.filter_cons] at ih ⊢
      by_cases hna' : n = a'
      · simp [hna, hna', attrGet, ih, h]
      · simp [hna, hna', attrGet, ih]

/-! ### Document-level lemmas -/

theorem findElem_updateElem (d : Doc) (r r' : Nat) (f : Elem → Elem) :
    findElem (updateElem d r f) r' =
      if r' = r then Option.map f (findElem d r) else findElem d r' := by
  induction d with
  | nil => by_cases h : r' = r <;> simp [updateElem, findElem, h]
  | cons hd tl ih =>
    obtain ⟨r0, e⟩ := hd
    by_cases h0 : r0 = r
    · subst h0
      by_cases h1 : r' = r0
      · subst h1
        simp [updateElem, findElem]
      · simp [updateElem, findElem, h1, Ne.symm h1, ih]
    · by_cases h1 : r0 = r'
      · subst h1
        simp [updateElem, findElem, h0, Ne.symm h0]
      · simp [updateElem, findElem, h0, h1, ih]

theorem getAttribute_set_ne_attr (d : Doc) (r r' : Nat) (a a' v : String) (h : a' ≠ a) :
    getAttribute (setAttribute d r a v) r' a' = getAttribute d r' a' := by
  unfold getAttribute setAttribute
  rw [findElem_updateElem]
  by_cases hr : r' = r
  · subst hr
    cases findElem d r' <;> simp [attrGet_attrSet_ne _ _ _ _ h]
  · simp [hr]

theorem getAttribute_set_ne_elem (d : Doc) (r r' : Nat) (a a' v : String) (h : r' ≠ r) :
    getAttribute (setAttribute d r a v) r' a' = getAttribute d r' a' := by
  unfold getAttribute setAttribute
  rw [findElem_updateElem]
  simp [h]

theorem getAttribute_set_self (d : Doc) (r : Nat) (a v : String)
    (h : elemIn d r = true) : getAttribute (setAttribute d r a v) r a = some v := by
  unfold elemIn at h
  obtain ⟨e, he⟩ := Option.isSome_iff_exists.mp h
  unfold getAttribute setAttribute
  rw [findElem_updateElem]
  simp [he, attrGet_attrSet_self]

theorem getAttribute_remove_ne_attr (d : Doc) (r r' : Nat) (a a' : String) (h : a' ≠ a) :
    getAttribute (removeAttribute d r a) r' a' = getAttribute d r' a' := by
  unfold getAttribute removeAttribute
  rw [findElem_updateElem]
  by_cases hr : r' = r
  · subst hr
    cases findElem d r' <;> simp [attrGet_attrRemove_ne _ _ _ h]
  · simp [hr]

theorem getAttribute_remove_ne_elem (d : Doc) (r r' : Nat) (a a' : String) (h : r' ≠ r) :
    getAttribute (removeAttribute d r a) r' a' = getAttribute d r' a' := by
  unfold getAttribute removeAttribute
  rw [findElem_updateElem]
  simp [h]

theorem getAttribute_remove_self (d : Doc) (r : Nat) (a : String) :
    getAttribute (removeAttribute d r a) r a = none := by
  unfold getAttribute removeAttribute
  rw [findElem_updateElem]
  cases findElem d r <;> simp [attrGet_attrRemove_self]

theorem elemIn_set (d : Doc) (r r' : Nat) (a v : String) :
    elemIn (setAttribute d r a v) r' = elemIn d r' := by
  unfold elemIn setAttribute
  rw [findElem_updateElem]
  by_cases hr : r' = r
  · subst hr
    cases findElem d r' <;> simp
  · simp [hr]

theorem elemIn_remove (d : Doc) (r r' : Nat) (a : String) :
    elemIn (removeAttribute d r a) r' = elemIn d r' := by
  unfold elemIn removeAttribute
  rw [findElem_updateElem]
  by_cases hr : r' = r
  · subst hr
    cases findElem d r' <;> simp
  · simp [hr]

theorem getAttribute_some_elemIn (d : Doc) (r : Nat) (a v : String)
    (h : getAttribute d r a = some v) : elemIn d r = true := by
  unfold getAttribute at h
  unfold elemIn
  cases he : findElem d r
  · rw [he] at h
    simp at h
  · simp [he]

theorem hasAttribute_true_elemIn (d : Doc) (r : Nat) (a : String)
    (h : hasAttribute d r a = true) : elemIn d r = true := by
  unfold hasAttribute at h
  obtain ⟨v, hv⟩ := Option.isSome_iff_exists.mp h
  exact getAttribute_some_elemIn d r a v hv

/-! ### Id lookup and class invariance -/

theorem findByIdLoop_updateElem (d : Doc) (r : Nat) (f : Elem → Elem) (i : String)
    (hf : ∀ e, attrGet (f e).attrs "id" = attrGet e.attrs "id") :
    findByIdLoop (updateElem d r f) i = findByIdLoop d i := by
  induction d with
  | nil => simp [updateElem]
  | cons hd tl ih =>
    obtain ⟨r0, e⟩ := hd
    by_cases h0 : r0 = r
    · simp [updateElem, findByIdLoop, h0, hf e, ih]
    · simp [updateElem, findByIdLoop, h0, ih]

theorem querySelectorId_set (d : Doc) (r : Nat) (a v i : String) (h : a ≠ "id") :
    querySelectorId (setAttribute d r a v) i = querySelectorId d i := by
  unfold querySelectorId setAttribute
  by_cases hi : i = ""
  · simp [hi]
  · simp only [if_neg hi]
    exact findByIdLoop_updateElem d r _ i
      (fun e => attrGet_attrSet_ne e.attrs a "id" v (Ne.symm h))

theorem querySelectorId_remove (d : Doc) (r : Nat) (a i : String) (h : a ≠ "id") :
    querySelectorId (removeAttribute d r a) i = querySelectorId d i := by
  unfold querySelectorId removeAttribute
  by_cases hi : i = ""
  · simp [hi]
  · simp only [if_neg hi]
    exact findByIdLoop_updateElem d r _ i
      (fun e => attrGet_attrRemove_ne e.attrs a "id" (Ne.symm h))

theorem findByIdLoop_some_elemIn (d : Doc) (i : String) (r : Nat)
    (h : findByIdLoop d i = some r) : elemIn d r = true := by
  induction d with
  | nil => simp [findByIdLoop] at h
  | cons hd tl ih =>
    obtain ⟨r0, e⟩ := hd
    by_cases h0 : attrGet e.attrs "id" = some i
    · simp only [findByIdLoop, if_pos h0, Option.some.injEq] at h
      subst h
      simp [elemIn, findElem]
    · simp only [findByIdLoop, if_neg h0] at h
      have := ih h
      unfold elemIn findElem
      by_cases hr : r0 = r
      · simp [hr]
      · simpa [hr] using this

theorem querySelectorId_some_elemIn (d : Doc) (i : String) (r : Nat)
    (h : querySelectorId d i = some r) : elemIn d r = true := by
  unfold querySelectorId at h
  by_cases hi : i = ""
  · simp [hi] at h
  · exact findByIdLoop_some_elemIn d i r (by simpa [hi] using h)

/-! ### Region association invariance -/

theorem regionIds_set_ne (col : Collapsible) (d : Doc) (r : Nat) (a v : String)
    (h : a ≠ "aria-controls") :
    Collapsible.regionIds col (setAttribute d r a v) = col.regionIds d := by
  unfold Collapsible.regionIds
  rw [getAttribute_set_ne_attr d r col.controlElement_ a "aria-controls" v (Ne.symm h)]

theorem regionIds_remove_ne (col : Collapsible) (d : Doc) (r : Nat) (a : String)
    (h : a ≠ "aria-controls") :
    Collapsible.regionIds col (removeAttribute d r a) = col.regionIds d := by
  unfold Collapsible.regionIds
  rw [getAttribute_remove_ne_attr d r col.controlElement_ a "aria-controls" (Ne.symm h)]

theorem regionElements_set (col : Collapsible) (d : Doc) (r : Nat) (a v : String)
    (h1 : a ≠ "aria-controls") (h2 : a ≠ "id") :
    Collapsible.regionElements col (setAttribute d r a v) = col.regionElements d := by
  unfold Collapsible.regionElements
  rw [regionIds_set_ne col d r a v h1]
  congr 1
  funext i
  exact querySelectorId_set d r a v i h2

theorem regionElements_remove (col : Collapsible) (d : Doc) (r : Nat) (a : String)
    (h1 : a ≠ "aria-controls") (h2 : a ≠ "id") :
    Collapsible.regionElements col (removeAttribute d r a) = col.regionElements d := by
  unfold Collapsible.regionElements
  rw [regionIds_remove_ne col d r a h1]
  congr 1
  funext i
  exact querySelectorId_remove d r a i h2

theorem regionElements_mem_elemIn (col : Collapsible) (d : Doc) (r : Nat)
    (h : r ∈ col.regionElements d) : elemIn d r = true := by
  unfold Collapsible.regionElements at h
  obtain ⟨i, _, hq⟩ := List.mem_filterMap.mp h
  exact querySelectorId_some_elemIn d i r hq

/-! ### Fold lemmas for `collapse` and `expand` -/

theorem foldl_hiddenSet_other (L : List Nat) (d : Doc) (r : Nat) (a : String)
    (h : a ≠ "hidden") :
    getAttribute (L.foldl (fun dd x => setAttribute dd x "hidden" "") d) r a =
      getAttribute d r a := by
  induction L generalizing d with
  | nil => simp
  | cons x rest ih =>
    simp only [List.foldl_cons]
    rw [ih, getAttribute_set_ne_attr d x r "hidden" a "" h]

theorem foldl_hiddenSet_preserve (L : List Nat) (d : Doc) (r : Nat)
    (h : getAttribute d r "hidden" = some "") :
    getAttribute (L.foldl (fun dd x => setAttribute dd x "hidden" "") d) r "hidden" =
      some "" := by
  induction L generalizing d with
  | nil => simpa
  | cons x rest ih =>
    simp only [List.foldl_cons]
    apply ih
    by_cases hx : r = x
    · subst hx
      exact getAttribute_set_self d r "hidden" "" (getAttribute_some_elemIn d r "hidden" "" h)
    · rw [getAttribute_set_ne_elem d x r "hidden" "hidden" "" hx]
      exact h

theorem foldl_hiddenSet_mem (L : List Nat) (d : Doc)
    (hin : ∀ x ∈ L, elemIn d x = true) (r : Nat) (hr : r ∈ L) :
    getAttribute (L.foldl (fun dd x => setAttribute dd x "hidden" "") d) r "hidden" =
      some "" := by
  induction L generalizing d with
  | nil => cases hr
  | cons x rest ih =>
    simp only [List.foldl_cons]
    rcases List.mem_cons.mp hr with h1 | h2
    · subst h1
      apply foldl_hiddenSet_preserve
      exact getAttribute_set_self d r "hidden" "" (hin r (List.mem_cons_self r rest))
    · apply ih
      · intro y hy
        rw [elemIn_set]
        exact hin y (List.mem_cons_of_mem x hy)
      · exact h2

theorem foldl_hiddenRemove_other (L : List Nat) (d : Doc) (r : Nat) (a : String)
    (h : a ≠ "hidden") :
    getAttribute (L.foldl (fun dd x => removeAttribute dd x "hidden") d) r a =
      getAttribute d r a := by
  induction L generalizing d with
  | nil => simp
  | cons x rest ih =>
    simp only [List.foldl_cons]
    rw [ih, getAttribute_remove_ne_attr d x r "hidden" a h]

theorem foldl_hiddenRemove_preserve (L : List Nat) (d : Doc) (r : Nat)
    (h : getAttribute d r "hidden" = none) :
    getAttribute (L.foldl (fun dd x => removeAttribute dd x "hidden") d) r "hidden" =
      none := by
  induction L generalizing d with
  | nil => simpa
  | cons x rest ih =>
    simp only [List.foldl_cons]
    apply ih
    by_cases hx : r = x
    · subst hx
      exact getAttribute_remove_self d r "hidden"
    · rw [getAttribute_remove_ne_elem d x r "hidden" "hidden" hx]
      exact h

theorem foldl_hiddenRemove_mem (L : List Nat) (d : Doc) (r : Nat) (hr : r ∈ L) :
    getAttribute (L.foldl (fun dd x => removeAttribute dd x "hidden") d) r "hidden" =
      none := by
  induction L generalizing d with
  | nil => cases hr
  | cons x rest ih =>
    simp only [List.foldl_cons]
    rcases List.mem_cons.mp hr with h1 | h2
    · subst h1
      apply foldl_hiddenRemove_preserve
      exact getAttribute_remove_self d r "hidden"
    · exact ih _ h2

theorem regionElements_foldl_hiddenSet (col : Collapsible) (L : List Nat) (d : Doc) :
    Collapsible.regionElements col (L.foldl (fun dd x => setAttribute dd x "hidden" "") d) =
      col.regionElements d := by
  induction L generalizing d with
  | nil => simp
  | cons x rest ih =>
    simp only [List.foldl_cons]
    rw [ih, regionElements_set col d x "hidden" "" (by decide) (by decide)]

theorem regionElements_foldl_hiddenRemove (col : Collapsible) (L : List Nat) (d : Doc) :
    Collapsible.regionElements col
        (L.foldl (fun dd x => removeAttribute dd x "hidden") d) =
      col.regionElements d := by
  induction L generalizing d with
  | nil => simp
  | cons x rest ih =>
    simp only [List.foldl_cons]
    rw [ih, regionElements_remove col d x "hidden" (by decide) (by decide)]


/-! ### Presence of `aria-expanded` -/

theorem hasAttribute_set_ne_attr (d : Doc) (r r' : Nat) (a a' v : String) (h : a' ≠ a) :
    hasAttribute (setAttribute d r a v) r' a' = hasAttribute d r' a' := by
  unfold hasAttribute
  rw [getAttribute_set_ne_attr d r r' a a' v h]

theorem hasAttribute_remove_ne_attr (d : Doc) (r r' : Nat) (a a' : String) (h : a' ≠ a) :
    hasAttribute (removeAttribute d r a) r' a' = hasAttribute d r' a' := by
  unfold hasAttribute
  rw [getAttribute_remove_ne_attr d r r' a a' h]

theorem classContains_true_elemIn (d : Doc) (r : Nat) (cls : String)
    (h : classContains d r cls = true) : elemIn d r = true := by
  by_cases he : elemIn d r = true
  · exact he
  · exfalso
    have hf : findElem d r = none := by
      unfold elemIn at he
      cases hf : findElem d r
      · rfl
      · rw [hf] at he
        simp at he
    unfold classContains classTokens getAttribute at h
    rw [hf] at h
    have hnil : (List.filter (fun s => s != "") (splitOnSpace ((none : Option String).getD ""))) =
        ([] : List String) := by decide
    rw [hnil] at h
    simp at h

theorem findControl_some_elemIn (d : Doc) (comp : Component) (c : Nat)
    (h : findControl d comp = some c) : elemIn d c = true := by
  unfold findControl at h
  have hp := List.find?_some h
  exact classContains_true_elemIn d c COLLAPSIBLE_CONTROL_CLASS (by simpa using hp)

theorem ariaPresent_set_ne (d : Doc) (col : Collapsible) (r : Nat) (a v : String)
    (ha : a ≠ "aria-expanded") (h : ariaPresent d col) :
    ariaPresent (setAttribute d r a v) col := by
  unfold ariaPresent at h ⊢
  rw [hasAttribute_set_ne_attr d r col.controlElement_ a "aria-expanded" v (Ne.symm ha)]
  exact h

theorem ariaPresent_remove_ne (d : Doc) (col : Collapsible) (r : Nat) (a : String)
    (ha : a ≠ "aria-expanded") (h : ariaPresent d col) :
    ariaPresent (removeAttribute d r a) col := by
  unfold ariaPresent at h ⊢
  rw [hasAttribute_remove_ne_attr d r col.controlElement_ a "aria-expanded" (Ne.symm ha)]
  exact h

theorem ariaPresent_classListAdd (d : Doc) (col : Collapsible) (r : Nat) (cls : String)
    (h : ariaPresent d col) : ariaPresent (classListAdd d r cls) col := by
  unfold classListAdd
  split
  · exact h
  · exact ariaPresent_set_ne d col r "class" _ (by decide) h

theorem ariaPresent_addRegionId (d : Doc) (col : Collapsible) (i : String)
    (h : ariaPresent d col) : ariaPresent (col.addRegionId d i) col := by
  unfold Collapsible.addRegionId
  split
  · exact ariaPresent_set_ne d col col.controlElement_ "aria-controls" _ (by decide) h
  · exact h

theorem ariaPresent_expand (d : Doc) (col : Collapsible) (h : ariaPresent d col) :
    ariaPresent (col.expand d) col := by
  unfold Collapsible.expand
  unfold ariaPresent hasAttribute
  rw [foldl_hiddenRemove_other _ _ _ _ (by decide)]
  rw [getAttribute_set_self d col.controlElement_ "aria-expanded" "true"
    (hasAttribute_true_elemIn d col.controlElement_ "aria-expanded" h)]
  rfl

theorem ariaPresent_collapse (d : Doc) (col : Collapsible) (h : ariaPresent d col) :
    ariaPresent (col.collapse d) col := by
  unfold Collapsible.collapse
  unfold ariaPresent hasAttribute
  rw [foldl_hiddenSet_other _ _ _ _ (by decide)]
  rw [getAttribute_set_self d col.controlElement_ "aria-expanded" "false"
    (hasAttribute_true_elemIn d col.controlElement_ "aria-expanded" h)]
  rfl

theorem ariaPresent_removeRegionElement (d : Doc) (col : Collapsible)
    (reg : Option Nat) (h : ariaPresent d col) :
    ariaPresent (col.removeRegionElement d reg) col := by
  cases reg with
  | none => exact h
  | some r =>
    simp only [Collapsible.removeRegionElement]
    split
    · exact ariaPresent_set_ne d col col.controlElement_ "aria-controls" _ (by decide) h
    · exact h

theorem ariaPresent_toggle_ok (d : Doc) (col : Collapsible) (h : ariaPresent d col) :
    ∃ d2, col.toggle d = .ok d2 ∧ ariaPresent d2 col := by
  obtain ⟨v, hv⟩ := Option.isSome_iff_exists.mp h
  by_cases hlv : jsToLower v = "false"
  · exact ⟨col.expand d, by simp [Collapsible.toggle, hv, hlv], ariaPresent_expand d col h⟩
  · exact ⟨col.collapse d, by simp [Collapsible.toggle, hv, hlv], ariaPresent_collapse d col h⟩

theorem ariaPresent_ite (col : Collapsible) (P : Prop) [Decidable P] (dA dB : Doc)
    (hA : ariaPresent dA col) (hB : ariaPresent dB col) :
    ariaPresent (if P then dA else dB) col := by
  split
  · exact hA
  · exact hB

theorem ariaPresent_addRegionElement_ok (col : Collapsible) (d : Doc) (r : Nat)
    (fid : String) (h : ariaPresent d col) :
    ∃ d2, col.addRegionElement d r fid = .ok d2 ∧ ariaPresent d2 col := by
  have h1 : ariaPresent (if hasAttribute d r "id" then d else setAttribute d r "id" fid) col :=
    ariaPresent_ite col _ d (setAttribute d r "id" fid) h
      (ariaPresent_set_ne d col r "id" fid (by decide) h)
  have h2 : ariaPresent (classListAdd
      (if hasAttribute d r "id" then d else setAttribute d r "id" fid) r
      COLLAPSIBLE_REGION_CLASS) col :=
    ariaPresent_classListAdd _ col r _ h1
  have h3 : ariaPresent (setAttribute (classListAdd
      (if hasAttribute d r "id" then d else setAttribute d r "id" fid) r
      COLLAPSIBLE_REGION_CLASS) r "role" "region") col :=
    ariaPresent_set_ne _ col r "role" "region" (by decide) h2
  obtain ⟨v, hv⟩ := Option.isSome_iff_exists.mp h3
  simp only [Collapsible.addRegionElement]
  rw [hv]
  refine ⟨_, rfl, ?_⟩
  apply ariaPresent_addRegionId
  apply ariaPresent_ite
  · apply ariaPresent_ite
    · exact ariaPresent_set_ne _ col r "hidden" "" (by decide) h3
    · exact ariaPresent_remove_ne _ col r "hidden" (by decide) h3
  · apply ariaPresent_set_ne _ col r "tabindex" "-1" (by decide)
    apply ariaPresent_ite
    · exact ariaPresent_set_ne _ col r "hidden" "" (by decide) h3
    · exact ariaPresent_remove_ne _ col r "hidden" (by decide) h3

theorem ariaPresent_addRegionElementsGo_ok (col : Collapsible) (elems : List Nat) :
    ∀ (d : Doc) (fresh : Nat → String) (i : Nat), ariaPresent d col →
      ∃ d2, addRegionElementsGo col d elems fresh i = .ok d2 ∧ ariaPresent d2 col := by
  induction elems with
  | nil => exact fun d fresh i h => ⟨d, rfl, h⟩
  | cons e rest ih =>
    intro d fresh i h
    obtain ⟨d2, hd2, h2⟩ := ariaPresent_addRegionElement_ok col d e (fresh i) h
    obtain ⟨d3, hd3, h3⟩ := ih d2 fresh (i + 1) h2
    refine ⟨d3, ?_, h3⟩
    unfold addRegionElementsGo
    rw [hd2]
    exact hd3

theorem ariaPresent_removeRegionElementsGo (col : Collapsible) (elems : List (Option Nat)) :
    ∀ (d : Doc), ariaPresent d col →
      ariaPresent (removeRegionElementsGo col d elems) col := by
  induction elems with
  | nil => exact fun d h => h
  | cons e rest ih =>
    intro d h
    unfold removeRegionElementsGo
    exact ih _ (ariaPresent_removeRegionElement d col e h)

theorem normalizeControl_aria (d : Doc) (c : Nat) (hin : elemIn d c = true) :
    hasAttribute (normalizeControl d c) c "aria-expanded" = true := by
  simp only [normalizeControl]
  generalize hB : (if hasAttribute d c "aria-expanded" = true then d
      else setAttribute d c "aria-expanded" "false") = B
  have hbase : hasAttribute B c "aria-expanded" = true := by
    rw [← hB]
    split
    · next hh => exact hh
    · unfold hasAttribute
      rw [getAttribute_set_self d c "aria-expanded" "false" hin]
      rfl
  generalize hR : (if jsToLower (nodeNameOf B c) = "button" then B
      else setAttribute B c "role" "button") = R
  have hrole : hasAttribute R c "aria-expanded" = true := by
    rw [← hR]
    split
    · exact hbase
    · rw [hasAttribute_set_ne_attr B c c "role" "aria-expanded" "button" (by decide)]
      exact hbase
  split
  · exact hrole
  · rw [hasAttribute_set_ne_attr R c c "tabindex" "aria-expanded" "0" (by decide)]
    exact hrole

theorem initControlRun_ok_aria (d : Doc) (comp : Component) (d3 : Doc) (c : Nat)
    (h : initControlRun d comp = .ok (d3, c)) :
    hasAttribute d3 c "aria-expanded" = true := by
  unfold initControlRun at h
  cases hf : findControl d comp with
  | none =>
    rw [hf] at h
    exact absurd h (by simp)
  | some c0 =>
    rw [hf] at h
    simp only [Except.ok.injEq, Prod.mk.injEq] at h
    obtain ⟨hd3, hc⟩ := h
    subst hc
    subst hd3
    exact normalizeControl_aria d c0 (findControl_some_elemIn d comp c0 hf)

/-! ### Preservation of author-supplied attributes -/

theorem pres_refl (d : Doc) : preservesAuthorAttrs d d :=
  fun _ _ _ _ h => h

theorem pres_trans (d d' d'' : Doc) (h1 : preservesAuthorAttrs d d')
    (h2 : preservesAuthorAttrs d' d'') : preservesAuthorAttrs d d'' :=
  fun r a v hS hg => h2 r a v hS (h1 r a v hS hg)

theorem pres_set_other (d : Doc) (r : Nat) (a v : String)
    (h1 : a ≠ "aria-expanded") (h2 : a ≠ "tabindex") (h3 : a ≠ "id") :
    preservesAuthorAttrs d (setAttribute d r a v) := by
  intro r' a' v' hS hg
  have ha : a' ≠ a := by
    rcases hS with h | h | h <;> subst h
    · exact Ne.symm h1
    · exact Ne.symm h2
    · exact Ne.symm h3
  rw [getAttribute_set_ne_attr d r r' a a' v ha]
  exact hg

theorem pres_remove_other (d : Doc) (r : Nat) (a : String)
    (h1 : a ≠ "aria-expanded") (h2 : a ≠ "tabindex") (h3 : a ≠ "id") :
    preservesAuthorAttrs d (removeAttribute d r a) := by
  intro r' a' v' hS hg
  have ha : a' ≠ a := by
    rcases hS with h | h | h <;> subst h
    · exact Ne.symm h1
    · exact Ne.symm h2
    · exact Ne.symm h3
  rw [getAttribute_remove_ne_attr d r r' a a' ha]
  exact hg

theorem pres_set_absent (d : Doc) (r : Nat) (a v : String)
    (h : getAttribute d r a = none) :
    preservesAuthorAttrs d (setAttribute d r a v) := by
  intro r' a' v' _ hg
  by_cases hr : r' = r
  · by_cases ha : a' = a
    · subst hr
      subst ha
      rw [h] at hg
      exact absurd hg (by simp)
    · rw [getAttribute_set_ne_attr d r r' a a' v ha]
      exact hg
  · rw [getAttribute_set_ne_elem d r r' a a' v hr]
    exact hg

theorem pres_classListAdd (d : Doc) (r : Nat) (cls : String) :
    preservesAuthorAttrs d (classListAdd d r cls) := by
  unfold classListAdd
  split
  · exact pres_refl d
  · exact pres_set_other d r "class" _ (by decide) (by decide) (by decide)

theorem pres_addRegionId (col : Collapsible) (d : Doc) (i : String) :
    preservesAuthorAttrs d (col.addRegionId d i) := by
  unfold Collapsible.addRegionId
  split
  · exact pres_set_other d col.controlElement_ "aria-controls" _
      (by decide) (by decide) (by decide)
  · exact pres_refl d

theorem pres_guardedSet (d : Doc) (r : Nat) (a v : String) :
    preservesAuthorAttrs d (if hasAttribute d r a then d else setAttribute d r a v) := by
  split
  · exact pres_refl d
  · next hc =>
    apply pres_set_absent
    have : (getAttribute d r a).isSome = false := by
      unfold hasAttribute at hc
      exact Bool.not_eq_true _ ▸ eq_false_of_ne_true hc
    exact Option.not_isSome_iff_eq_none.mp (by simp [this])

theorem pres_ite_both (d : Doc) (P : Prop) [Decidable P] (dA dB : Doc)
    (hA : preservesAuthorAttrs d dA) (hB : preservesAuthorAttrs d dB) :
    preservesAuthorAttrs d (if P then dA else dB) := by
  split
  · exact hA
  · exact hB

theorem pres_addRegionElement (col : Collapsible) (dX : Doc) (r : Nat) (fid : String)
    (dY : Doc) (h : col.addRegionElement dX r fid = .ok dY) :
    preservesAuthorAttrs dX dY := by
  simp only [Collapsible.addRegionElement] at h
  split at h
  · exact absurd h (by simp)
  · simp only [Except.ok.injEq] at h
    subst h
    refine pres_trans _ _ _ ?_ (pres_addRegionId col _ _)
    refine pres_trans _ _ _ ?_ (pres_guardedSet _ r "tabindex" "-1")
    refine pres_trans _ _ _ ?_ (pres_ite_both _ _ _ _
      (pres_set_other _ r "hidden" "" (by decide) (by decide) (by decide))
      (pres_remove_other _ r "hidden" (by decide) (by decide) (by decide)))
    refine pres_trans _ _ _ ?_
      (pres_set_other _ r "role" "region" (by decide) (by decide) (by decide))
    refine pres_trans _ _ _ ?_ (pres_classListAdd _ r COLLAPSIBLE_REGION_CLASS)
    exact pres_guardedSet dX r "id" fid

theorem pres_addRegionElementsGo (col : Collapsible) (elems : List Nat) :
    ∀ (dX : Doc) (fresh : Nat → String) (i : Nat) (dY : Doc),
      addRegionElementsGo col dX elems fresh i = .ok dY →
      preservesAuthorAttrs dX dY := by
  induction elems with
  | nil =>
    intro dX fresh i dY h
    simp only [addRegionElementsGo, Except.ok.injEq] at h
    subst h
    exact pres_refl dX
  | cons e rest ih =>
    intro dX fresh i dY h
    simp only [addRegionElementsGo] at h
    split at h
    · exact absurd h (by simp)
    · next d2 hd2 =>
      exact pres_trans _ _ _ (pres_addRegionElement col dX e (fresh i) d2 hd2)
        (ih d2 fresh (i + 1) dY h)

theorem pres_normalizeControl (d : Doc) (c : Nat) :
    preservesAuthorAttrs d (normalizeControl d c) := by
  simp only [normalizeControl]
  refine pres_trans _ _ _ ?_ (pres_guardedSet _ c "tabindex" "0")
  refine pres_trans _ _ _ ?_ (pres_ite_both _ _ _ _ (pres_refl _)
    (pres_set_other _ c "role" "button" (by decide) (by decide) (by decide)))
  exact pres_guardedSet d c "aria-expanded" "false"

/-! ### Claim theorems -/

/-- C9: after a successful initialization the control element carries an
`aria-expanded` attribute, every operation of the component preserves the
presence of that attribute, and consequently the `aria-expanded` reads of
`toggle` and `addRegionElement` never see a missing attribute (the
operations cannot throw) on an initialized component. -/
theorem aria_expanded_always_present :
    (∀ (d : Doc) (comp : Component) (fresh : Nat → String) (d' : Doc) (col : Collapsible),
        Collapsible.initRun d comp fresh = .ok (d', col) → ariaPresent d' col)
    ∧ (∀ (d : Doc) (col : Collapsible), ariaPresent d col →
        ariaPresent (col.expand d) col
        ∧ ariaPresent (col.collapse d) col
        ∧ (∃ d2, col.toggle d = .ok d2 ∧ ariaPresent d2 col)
        ∧ (∀ (r : Nat) (fid : String),
            ∃ d2, col.addRegionElement d r fid = .ok d2 ∧ ariaPresent d2 col)
        ∧ (∀ (reg : Option Nat), ariaPresent (col.removeRegionElement d reg) col)
        ∧ (∀ (elems : List Nat) (fresh : Nat → String) (i : Nat),
            ∃ d2, addRegionElementsGo col d elems fresh i = .ok d2 ∧ ariaPresent d2 col)
        ∧ (∀ (elems : List (Option Nat)),
            ariaPresent (removeRegionElementsGo col d elems) col)) := by
  constructor
  · intro d comp fresh d' col h
    cases hic : initControlRun d comp with
    | error de =>
      have herr : Collapsible.initRun d comp fresh = .error de := by
        unfold Collapsible.initRun
        rw [hic]
      rw [herr] at h
      exact absurd h (by simp)
    | ok p =>
      obtain ⟨d3, c⟩ := p
      have haria : ariaPresent d3 ⟨comp.element, c⟩ :=
        initControlRun_ok_aria d comp d3 c hic
      obtain ⟨d4, hgo, h4⟩ := ariaPresent_addRegionElementsGo_ok ⟨comp.element, c⟩
        (initRegionsSelect ⟨comp.element, c⟩ d3 comp) d3 fresh 0 haria
      have hok : Collapsible.initRun d comp fresh = .ok (d4, ⟨comp.element, c⟩) := by
        unfold Collapsible.initRun
        rw [hic]
        simp only []
        rw [hgo]
      rw [hok] at h
      simp only [Except.ok.injEq, Prod.mk.injEq] at h
      obtain ⟨hd, hcol⟩ := h
      subst hd
      subst hcol
      exact h4
  · intro d col h
    refine ⟨ariaPresent_expand d col h, ariaPresent_collapse d col h,
      ariaPresent_toggle_ok d col h,
      fun r fid => ariaPresent_addRegionElement_ok col d r fid h,
      fun reg => ariaPresent_removeRegionElement d col reg h,
      fun elems fresh i => ariaPresent_addRegionElementsGo_ok col elems d fresh i h,
      fun elems => ariaPresent_removeRegionElementsGo col elems d h⟩

/-- Witness for C9 on the default fixture: the attribute is present after
`init` and preserved by a collapse. -/
theorem aria_expanded_always_present_witness :
    ariaPresent c9wDocAfter ⟨0, 1⟩
      ∧ ariaPresent (Collapsible.collapse ⟨0, 1⟩ c1wDoc) ⟨0, 1⟩ :=
  ⟨aria_expanded_always_present.1 c9wDoc c9wComp c9wFresh c9wDocAfter ⟨0, 1⟩ rfl,
   (aria_expanded_always_present.2 c1wDoc ⟨0, 1⟩ rfl).2.1⟩

/-- C10: initialization throws exactly when the component element has no
descendant carrying the control class, and in that case the document is
untouched at the throw (the error value is the input document). -/
theorem init_throws_iff_no_control :
    ∀ (d : Doc) (comp : Component) (fresh : Nat → String),
      ((∀ r ∈ comp.descendants, classContains d r COLLAPSIBLE_CONTROL_CLASS = false) →
        Collapsible.initRun d comp fresh = .error d)
      ∧ (∀ d', Collapsible.initRun d comp fresh = .error d' →
          d' = d ∧ ∀ r ∈ comp.descendants, classContains d r COLLAPSIBLE_CONTROL_CLASS = false) := by
  intro d comp fresh
  constructor
  · intro h
    have hnone : findControl d comp = none := by
      unfold findControl
      rw [List.find?_eq_none]
      intro r hr
      simp [h r hr]
    unfold Collapsible.initRun initControlRun
    rw [hnone]
  · intro d' h
    cases hf : findControl d comp with
    | none =>
      have herr : Collapsible.initRun d comp fresh = .error d := by
        unfold Collapsible.initRun initControlRun
        rw [hf]
      rw [herr] at h
      simp only [Except.error.injEq] at h
      refine ⟨h.symm, ?_⟩
      intro r hr
      unfold findControl at hf
      have := List.find?_eq_none.mp hf r hr
      simpa using this
    | some c =>
      exfalso
      have hic : initControlRun d comp = .ok (normalizeControl d c, c) := by
        unfold initControlRun
        rw [hf]
      have haria : ariaPresent (normalizeControl d c) ⟨comp.element, c⟩ :=
        normalizeControl_aria d c (findControl_some_elemIn d comp c hf)
      obtain ⟨d2, hgo, _⟩ := ariaPresent_addRegionElementsGo_ok ⟨comp.element, c⟩
        (initRegionsSelect ⟨comp.element, c⟩ (normalizeControl d c) comp)
        (normalizeControl d c) fresh 0 haria
      have hok : Collapsible.initRun d comp fresh = .ok (d2, ⟨comp.element, c⟩) := by
        unfold Collapsible.initRun
        rw [hic]
        simp only []
        rw [hgo]
      rw [hok] at h
      exact absurd h (by simp)

/-- Witness for C10: a component without a control descendant makes `init`
throw with the document untouched. -/
theorem init_throws_iff_no_control_witness :
    Collapsible.initRun c10xDoc c10xComp c9wFresh = .error c10xDoc :=
  (init_throws_iff_no_control c10xDoc c10xComp c9wFresh).1 (by decide)


/-- C1: `expand()` sets the control's `aria-expanded` to `"true"` and removes
the `hidden` attribute from every region element resolved from the control's
`aria-controls` list, and `collapse()` sets `aria-expanded` to `"false"` and
sets `hidden` on every such region element; after either operation the
`aria-expanded` state and the `hidden` attributes of all associated regions
are in sync. -/
theorem expand_collapse_sync_aria_hidden :
    ∀ (d : Doc) (col : Collapsible), elemIn d col.controlElement_ = true →
      (getAttribute (col.collapse d) col.controlElement_ "aria-expanded" = some "false"
        ∧ ∀ r ∈ Collapsible.regionElements col (col.collapse d),
            hasAttribute (col.collapse d) r "hidden" = true)
      ∧ (getAttribute (col.expand d) col.controlElement_ "aria-expanded" = some "true"
        ∧ ∀ r ∈ Collapsible.regionElements col (col.expand d),
            hasAttribute (col.expand d) r "hidden" = false) := by
  intro d col h
  refine ⟨⟨?_, ?_⟩, ⟨?_, ?_⟩⟩
  · unfold Collapsible.collapse
    rw [foldl_hiddenSet_other _ _ _ _ (by decide)]
    exact getAttribute_set_self d col.controlElement_ "aria-expanded" "false" h
  · intro r hr
    unfold Collapsible.collapse at hr ⊢
    rw [regionElements_foldl_hiddenSet] at hr
    unfold hasAttribute
    rw [foldl_hiddenSet_mem _ _ (fun x hx => regionElements_mem_elemIn col _ x hx) r hr]
    rfl
  · unfold Collapsible.expand
    rw [foldl_hiddenRemove_other _ _ _ _ (by decide)]
    exact getAttribute_set_self d col.controlElement_ "aria-expanded" "true" h
  · intro r hr
    unfold Collapsible.expand at hr ⊢
    rw [regionElements_foldl_hiddenRemove] at hr
    unfold hasAttribute
    rw [foldl_hiddenRemove_mem _ _ r hr]
    rfl

/-- Witness for C1 at a concrete document. -/
theorem expand_collapse_sync_aria_hidden_witness :
    getAttribute (Collapsible.collapse ⟨0, 1⟩ c1wDoc) 1 "aria-expanded" = some "false"
      ∧ hasAttribute (Collapsible.collapse ⟨0, 1⟩ c1wDoc) 5 "hidden" = true
      ∧ getAttribute (Collapsible.expand ⟨0, 1⟩ c1wDoc) 1 "aria-expanded" = some "true"
      ∧ hasAttribute (Collapsible.expand ⟨0, 1⟩ c1wDoc) 6 "hidden" = false := by
  have h := expand_collapse_sync_aria_hidden c1wDoc ⟨0, 1⟩ (by decide)
  exact ⟨h.1.1, h.1.2 5 (by decide), h.2.1, h.2.2 6 (by decide)⟩

/-- C3: when the given region is non-null and bears a (truthy) id listed in
the control's `aria-controls`, `removeRegionElement` rewrites `aria-controls`
to the join of exactly the previously listed ids equal to the region's id:
every other id is dropped and the removed region's id is the one retained. -/
theorem removeRegionElement_retains_only_removed_id :
    ∀ (d : Doc) (col : Collapsible) (r : Nat),
      elemIn d col.controlElement_ = true →
      elemIdOf d r ≠ "" →
      elemIdOf d r ∈ col.regionIds d →
      getAttribute (col.removeRegionElement d (some r)) col.controlElement_ "aria-controls"
          = some (" ".intercalate ((col.regionIds d).filter (fun i => i == elemIdOf d r)))
        ∧ ∀ x ∈ (col.regionIds d).filter (fun i => i == elemIdOf d r),
            x = elemIdOf d r := by
  intro d col r hin hid _hmem
  constructor
  · have hstep : col.removeRegionElement d (some r) =
        setAttribute d col.controlElement_ "aria-controls"
          (" ".intercalate ((col.regionIds d).filter (fun i => i == elemIdOf d r))) := by
      simp [Collapsible.removeRegionElement, hid]
    rw [hstep]
    exact getAttribute_set_self d col.controlElement_ "aria-controls" _ hin
  · intro x hx
    have := List.mem_filter.mp hx
    exact eq_of_beq this.2

/-- Witness for C3: removing the region with id `ra` drops `rb` and keeps
`ra`. -/
theorem removeRegionElement_retains_only_removed_id_witness :
    getAttribute (Collapsible.removeRegionElement ⟨0, 1⟩ c3wDoc (some 5)) 1 "aria-controls"
      = some "ra" := by
  have h := removeRegionElement_retains_only_removed_id c3wDoc ⟨0, 1⟩ 5
    (by decide) (by decide) (by decide)
  exact h.1.trans (by decide)

/-- C4: on a component whose control carries an `aria-expanded` attribute,
`toggle()` behaves exactly as `expand()` when the lowercased value is
`"false"`, and exactly as `collapse()` otherwise. -/
theorem toggle_dispatches_on_aria_expanded :
    ∀ (d : Doc) (col : Collapsible) (v : String),
      getAttribute d col.controlElement_ "aria-expanded" = some v →
      Collapsible.toggle col d =
        .ok (if jsToLower v = "false" then col.expand d else col.collapse d) := by
  intro d col v h
  unfold Collapsible.toggle
  rw [h]
  by_cases hv : jsToLower v = "false" <;> simp [hv]

/-- Witness for C4: with `aria-expanded="true"` the toggle collapses. -/
theorem toggle_dispatches_on_aria_expanded_witness :
    Collapsible.toggle ⟨0, 1⟩ c1wDoc = .ok (Collapsible.collapse ⟨0, 1⟩ c1wDoc) := by
  have h := toggle_dispatches_on_aria_expanded c1wDoc ⟨0, 1⟩ "true" (by decide)
  rw [if_neg (by decide)] at h
  exact h

/-- The sibling walk of the source, characterized as a prefix-then-filter:
traversal continues while a sibling has the region class or lacks the
`mdlext-js-collapsible` class, and the regions are the traversed siblings
with the region class. -/
theorem discoverSiblingRegions_eq (d : Doc) (sibs : List Nat) :
    discoverSiblingRegions d sibs =
      (sibs.takeWhile (fun r => classContains d r COLLAPSIBLE_REGION_CLASS
          || !classContains d r JS_COLLAPSIBLE)).filter
        (fun r => classContains d r COLLAPSIBLE_REGION_CLASS) := by
  induction sibs with
  | nil => simp [discoverSiblingRegions]
  | cons r rest ih =>
    by_cases h1 : classContains d r COLLAPSIBLE_REGION_CLASS = true
    · simp [discoverSiblingRegions, h1, List.takeWhile_cons, List.filter_cons, ih]
    · by_cases h2 : classContains d r JS_COLLAPSIBLE = true
      · simp [discoverSiblingRegions, h1, h2, List.takeWhile_cons]
      · simp [discoverSiblingRegions, h1, h2, List.takeWhile_cons, List.filter_cons, ih]

/-- C5 (amended): when the control has no `aria-controls` attribute,
initialization discovers as regions exactly the siblings carrying the region
class that occur while the walk continues; the walk continues through every
sibling that carries the region class or lacks the `mdlext-js-collapsible`
class, and stops at the first sibling that has the `mdlext-js-collapsible`
class without the region class (a sibling with both classes is added as a
region and does not stop the walk). -/
theorem initRegionsSelect_sibling_discovery :
    ∀ (d : Doc) (col : Collapsible) (comp : Component),
      hasAttribute d col.controlElement_ "aria-controls" = false →
      initRegionsSelect col d comp =
        (comp.siblings.takeWhile (fun r => classContains d r COLLAPSIBLE_REGION_CLASS
            || !classContains d r JS_COLLAPSIBLE)).filter
          (fun r => classContains d r COLLAPSIBLE_REGION_CLASS) := by
  intro d col comp h
  unfold initRegionsSelect
  rw [h]
  simpa using discoverSiblingRegions_eq d comp.siblings

/-- Witness for C5 (amended): the walk collects region 3, skips the plain
paragraph 4, and stops at the next collapsible 7, so region 8 is excluded. -/
theorem initRegionsSelect_sibling_discovery_witness :
    initRegionsSelect ⟨0, 1⟩ c5wDoc c5wComp = [3] := by
  have h := initRegionsSelect_sibling_discovery c5wDoc ⟨0, 1⟩ c5wComp (by decide)
  exact h.trans (by decide)

/-- C5 counterexample: on a sibling carrying both the region class and the
`mdlext-js-collapsible` class the source adds the sibling and keeps walking,
while the claim's description (stop at the first `mdlext-js-collapsible`
sibling) discovers no region at all. -/
theorem initRegionsSelect_both_classes_counterexample :
    initRegionsSelect ⟨0, 1⟩ c5xDoc c5xComp = [3, 4]
      ∧ claimedSiblingRegions c5xDoc c5xComp.siblings = []
      ∧ initRegionsSelect ⟨0, 1⟩ c5xDoc c5xComp ≠
          claimedSiblingRegions c5xDoc c5xComp.siblings := by
  refine ⟨by decide, by decide, by decide⟩

/-- C7 (amended): `regionIds` is the space-split of `aria-controls` when the
attribute is present and `[]` when absent; `addRegionId(id)` leaves the
document unchanged when `id` is a nonempty member of the list, and appends
`id` (rewriting `aria-controls` as the space-join) when `id` is not in the
list or `id` is the empty string — the JS guard `!ids.find(...)` treats a
found empty string as falsy, so an empty id is re-appended even when
present. -/
theorem regionIds_addRegionId_spec :
    ∀ (d : Doc) (col : Collapsible) (i : String),
      ((∀ v, getAttribute d col.controlElement_ "aria-controls" = some v →
          col.regionIds d = splitOnSpace v)
        ∧ (getAttribute d col.controlElement_ "aria-controls" = none →
            col.regionIds d = []))
      ∧ (i ∈ col.regionIds d → i ≠ "" → col.addRegionId d i = d)
      ∧ ((i ∉ col.regionIds d ∨ i = "") → elemIn d col.controlElement_ = true →
          getAttribute (col.addRegionId d i) col.controlElement_ "aria-controls"
            = some (" ".intercalate (col.regionIds d ++ [i]))) := by
  intro d col i
  refine ⟨⟨?_, ?_⟩, ?_, ?_⟩
  · intro v hv
    simp [Collapsible.regionIds, hv]
  · intro hv
    simp [Collapsible.regionIds, hv]
  · intro hmem hne
    have hsome : ((col.regionIds d).find? (fun x => i == x)).isSome = true := by
      rw [List.find?_isSome]
      exact ⟨i, hmem, by simp⟩
    obtain ⟨z, hz⟩ := Option.isSome_iff_exists.mp hsome
    have hzi : i = z := eq_of_beq (List.find?_some hz)
    unfold Collapsible.addRegionId
    rw [hz]
    simp [← hzi, hne]
  · intro hor hin
    have hgd : (((col.regionIds d).find? (fun x => i == x)).getD "") = "" := by
      rcases hor with hnm | hemp
      · have : (col.regionIds d).find? (fun x => i == x) = none := by
          rw [List.find?_eq_none]
          intro x hx
          simp only [beq_iff_eq]
          intro hix
          exact hnm (hix ▸ hx)
        simp [this]
      · subst hemp
        cases hf : (List.find? (fun x => "" == x) (col.regionIds d)) with
        | none => simp
        | some z =>
          have := eq_of_beq (List.find?_some hf)
          simp [← this]
    unfold Collapsible.addRegionId
    rw [hgd]
    simp only [if_pos rfl]
    exact getAttribute_set_self d col.controlElement_ "aria-controls" _ hin

/-- Witness for C7: `addRegionId` is a no-op for the listed id `"ra"`, and
appends the new id `"rc"`. -/
theorem regionIds_addRegionId_spec_witness :
    Collapsible.addRegionId ⟨0, 1⟩ c7wDoc "ra" = c7wDoc
      ∧ getAttribute (Collapsible.addRegionId ⟨0, 1⟩ c7wDoc "rc") 1 "aria-controls"
          = some "ra rb rc" := by
  constructor
  · exact (regionIds_addRegionId_spec c7wDoc ⟨0, 1⟩ "ra").2.1 (by decide) (by decide)
  · exact ((regionIds_addRegionId_spec c7wDoc ⟨0, 1⟩ "rc").2.2
      (Or.inl (by decide)) (by decide)).trans (by decide)

/-- C7 counterexample: with `aria-controls=""` the id list is `[""]`, yet
`addRegionId("")` does not leave the attribute unchanged — the JS falsy-find
guard re-appends the empty id, producing `aria-controls=" "`. -/
theorem addRegionId_empty_duplicate_counterexample :
    "" ∈ Collapsible.regionIds ⟨0, 1⟩ c7xDoc
      ∧ Collapsible.addRegionId ⟨0, 1⟩ c7xDoc "" ≠ c7xDoc
      ∧ getAttribute (Collapsible.addRegionId ⟨0, 1⟩ c7xDoc "") 1 "aria-controls"
          = some " " := by
  refine ⟨by decide, by decide, by decide⟩

/-- C2 (amended): first initialization never clobbers an author-supplied
`aria-expanded`, `tabindex` or `id` attribute on any element — those
attributes are written only when absent, so a pre-existing value survives.
(The claim's original list also contains `role`, which the source overwrites
unconditionally on non-`button` controls and on regions; see the
counterexample.) -/
theorem init_preserves_author_attrs :
    ∀ (d : Doc) (comp : Component) (fresh : Nat → String) (d' : Doc) (col : Collapsible),
      Collapsible.initRun d comp fresh = .ok (d', col) →
      ∀ (r : Nat) (a v : String), (a = "aria-expanded" ∨ a = "tabindex" ∨ a = "id") →
        getAttribute d r a = some v → getAttribute d' r a = some v := by
  intro d comp fresh d' col h
  cases hf : findControl d comp with
  | none =>
    have herr : Collapsible.initRun d comp fresh = .error d := by
      unfold Collapsible.initRun initControlRun
      rw [hf]
    rw [herr] at h
    exact absurd h (by simp)
  | some c =>
    have hic : initControlRun d comp = .ok (normalizeControl d c, c) := by
      unfold initControlRun
      rw [hf]
    unfold Collapsible.initRun at h
    rw [hic] at h
    simp only [] at h
    split at h
    · exact absurd h (by simp)
    · next d4 hgo =>
      simp only [Except.ok.injEq, Prod.mk.injEq] at h
      obtain ⟨hd, _⟩ := h
      subst hd
      exact pres_trans _ _ _ (pres_normalizeControl d c)
        (pres_addRegionElementsGo ⟨comp.element, c⟩ _ _ fresh 0 d4 hgo)

/-- Witness for C2 on the fully author-annotated fixture: the author's
`tabindex="101"` on the control and `tabindex="102"` on the region survive
initialization. -/
theorem init_preserves_author_attrs_witness :
    getAttribute c2wDoc 1 "tabindex" = some "101"
      ∧ getAttribute c2wDoc 2 "tabindex" = some "102" :=
  ⟨init_preserves_author_attrs c2wDoc c2wComp c9wFresh c2wDoc ⟨0, 1⟩ rfl 1
      "tabindex" "101" (Or.inr (Or.inl rfl)) rfl,
   init_preserves_author_attrs c2wDoc c2wComp c9wFresh c2wDoc ⟨0, 1⟩ rfl 2
      "tabindex" "102" (Or.inr (Or.inl rfl)) rfl⟩

/-- C2 counterexample: a non-`button` control with the author-supplied
`role="note"` has that value overwritten with `role="button"` by the first
initialization — `role` is not preserved, contradicting the claim's list. -/
theorem init_clobbers_author_role_counterexample :
    getAttribute c2xDoc 1 "role" = some "note"
      ∧ Collapsible.initRun c2xDoc c2xComp c9wFresh = .ok (c2xDocAfter, ⟨0, 1⟩)
      ∧ getAttribute c2xDocAfter 1 "role" = some "button"
      ∧ getAttribute c2xDocAfter 1 "role" ≠ some "note" :=
  ⟨rfl, rfl, rfl, by decide⟩

/-- C6 (failing input for the code bug): a region with the author-supplied
empty id `id=""`. The first `addRegionElement` sets `aria-controls=""`; the
second call re-appends the empty id — the JS dedup guard
`!ids.find(id => regionId === id)` is truthy for a found empty string — and
`aria-controls` becomes `" "`, so re-running normalization changes the
attribute again: the rules are not idempotent on this input. -/
theorem addRegionElement_empty_id_not_idempotent :
    Collapsible.addRegionElement ⟨0, 1⟩ c6xDoc 2 "f1" = .ok c6xDoc1
      ∧ getAttribute c6xDoc1 1 "aria-controls" = some ""
      ∧ Collapsible.addRegionElement ⟨0, 1⟩ c6xDoc1 2 "f2" = .ok c6xDoc2
      ∧ getAttribute c6xDoc2 1 "aria-controls" = some " "
      ∧ c6xDoc2 ≠ c6xDoc1 :=
  ⟨rfl, rfl, rfl, rfl, by decide⟩

/-- C8: every public method of the `MaterialExtCollapsible` widget forwards
to the internal `Collapsible` object — same return value and same document
effect; the plural `addRegionElements`/`removeRegionElements` apply the
internal single-element method to each argument in order. -/
theorem adapter_forwards :
    ∀ (w : MaterialExtCollapsible) (d : Doc) (elems : List Nat)
      (elemsR : List (Option Nat)) (fresh : Nat → String) (i : Nat),
      MaterialExtCollapsible.getControlElement w = w.collapsible.controlElement
      ∧ MaterialExtCollapsible.getRegionElements w d = w.collapsible.regionElements d
      ∧ MaterialExtCollapsible.expand w d = w.collapsible.expand d
      ∧ MaterialExtCollapsible.collapse w d = w.collapsible.collapse d
      ∧ MaterialExtCollapsible.toggle w d = w.collapsible.toggle d
      ∧ MaterialExtCollapsible.addRegionElements w d elems fresh i =
          addRegionElementsGo w.collapsible d elems fresh i
      ∧ MaterialExtCollapsible.removeRegionElements w d elemsR =
          removeRegionElementsGo w.collapsible d elemsR := by
  intro w d elems elemsR fresh i
  refine ⟨rfl, rfl, rfl, rfl, rfl, ?_, ?_⟩
  · induction elems generalizing d i with
    | nil => rfl
    | cons e rest ih =>
      simp only [MaterialExtCollapsible.addRegionElements, addRegionElementsGo]
      cases w.collapsible.addRegionElement d e (fresh i) with
      | error de => rfl
      | ok d2 => exact ih d2 (i + 1)
  · induction elemsR generalizing d with
    | nil => rfl
    | cons e rest ih =>
      simp only [MaterialExtCollapsible.removeRegionElements, removeRegionElementsGo]
      exact ih _

end MdlExt
